import Mathlib

/-!
Chatlytics: parser and analytics, shallowly embedded.

Verification development for the Chatlytics repository.  The definitions
below are direct translations of parsing.py (the ChatParser class), of
the response-time bucketing and compatibility-index balance computation
of analysis.py (the ChatAnalyzer class), and of the allowed_file gate of
app.py.

The five anchored regular expressions of ChatParser are translated as
deterministic prefix parsers over lists of characters.  Each pattern is
anchored at both ends, and every backtracking point of the Python regex
engine on these particular patterns is either determinate (a greedy
subpattern whose follower character is excluded from the repeated
class, e.g. one-or-two digits followed by a colon), or is modelled
explicitly (the optional timezone-offset group of the Instagram pattern
tries the match both with and without the group).  The character
classes for whitespace, digits and word characters are modelled at
their ASCII meaning; all inputs appearing in the claims are ASCII.
-/

namespace Chatlytics

/-- Python whitespace class (ASCII range): space, tab, newline,
carriage return, vertical tab, form feed. -/
def pyWsChar (c : Char) : Bool :=
  c = ' ' || c = '\t' || c = '\n' || c = '\r' || c = '\x0b' || c = '\x0c'

/-- Python str.strip with no argument: remove leading and trailing
whitespace. -/
def pystrip (s : String) : String :=
  String.mk (((s.toList.dropWhile pyWsChar).reverse.dropWhile pyWsChar).reverse)

/-- The line cleanup of ChatParser._parse_text_lines: str.strip
restricted to newline and carriage-return characters, so it removes
them from both ends of the physical line. -/
def stripNL (s : String) : String :=
  let nl : Char → Bool := fun c => c = '\n' || c = '\r'
  String.mk (((s.toList.dropWhile nl).reverse.dropWhile nl).reverse)

/-- Greedy run of characters satisfying a predicate: the pair
(run, rest). -/
def takeRun (p : Char → Bool) (cs : List Char) : List Char × List Char :=
  (cs.takeWhile p, cs.dropWhile p)

/-- Bounded digit repetition whose follower in the pattern is never a
digit: the greedy digit run must have length between lo and hi. -/
def digitRun (lo hi : Nat) (cs : List Char) : Option (List Char) :=
  let (run, rest) := takeRun Char.isDigit cs
  if lo ≤ run.length ∧ run.length ≤ hi then some rest else none

/-- Exact digit repetition: exactly n digits from the front (more
digits may follow). -/
def exactDigits (n : Nat) (cs : List Char) : Option (List Char) :=
  if (cs.take n).length = n ∧ (cs.take n).all Char.isDigit then some (cs.drop n)
  else none

/-- A single literal character. -/
def lit (c : Char) : List Char → Option (List Char)
  | c' :: rest => if c' = c then some rest else none
  | [] => none

/-- The date separator class of the dash-timestamp patterns: slash or
dash. -/
def dateSep : List Char → Option (List Char)
  | c :: rest => if c = '/' || c = '-' then some rest else none
  | [] => none

/-- At least one whitespace character. -/
def ws1 (cs : List Char) : Option (List Char) :=
  let (run, rest) := takeRun pyWsChar cs
  if run.isEmpty then none else some rest

/-- The optional case-insensitive am/pm tail of the dash-timestamp
patterns: optional whitespace, a or p, optional dot, m, optional dot.
If the group does not match, nothing is consumed; committing on success
is equivalent to the regex search because the follower (whitespace then
a dash) can never begin at a position holding the letters a or p. -/
def matchAmPm (cs : List Char) : List Char :=
  let r1 := (takeRun pyWsChar cs).2
  match r1 with
  | c :: r2 =>
    if c = 'a' || c = 'A' || c = 'p' || c = 'P' then
      let r3 := match r2 with
        | '.' :: t => t
        | _ => r2
      match r3 with
      | m :: r4 =>
        if m = 'm' || m = 'M' then
          match r4 with
          | '.' :: t => t
          | _ => r4
        else cs
      | [] => cs
    else cs
  | [] => cs

/-- The timestamp group shared by android_message_re and
android_system_re: one-or-two digits, separator, one-or-two digits,
separator, two-to-four digits, optional comma, whitespace, one-or-two
digits, colon, two digits, optional am/pm tail.  Returns the rest of
the line after the group. -/
def matchAndroidTs (cs : List Char) : Option (List Char) := do
  let cs ← digitRun 1 2 cs
  let cs ← dateSep cs
  let cs ← digitRun 1 2 cs
  let cs ← dateSep cs
  let cs ← digitRun 2 4 cs
  let cs := match cs with
    | ',' :: t => t
    | _ => cs
  let cs ← ws1 cs
  let cs ← digitRun 1 2 cs
  let cs ← lit ':' cs
  let cs ← exactDigits 2 cs
  pure (matchAmPm cs)

/-- Greedy whitespace then a literal dash. -/
def wsDash (cs : List Char) : Option (List Char) :=
  lit '-' (takeRun pyWsChar cs).2

/-- The sender group shared by the with-sender patterns: optional
whitespace, then one or more non-colon characters, then a colon.  The
colon matched is necessarily the first colon of the rest of the line;
the regex backtracks the whitespace star just enough to keep the sender
group non-empty.  Returns (raw sender capture, rest after the colon). -/
def senderColon (cs : List Char) : Option (List Char × List Char) :=
  match cs.findIdx? (· = ':') with
  | none => none
  | some k =>
    if k = 0 then none
    else
      let w := (cs.takeWhile pyWsChar).length
      let s := Nat.min w (k - 1)
      some ((cs.drop s).take (k - s), cs.drop (k + 1))

/-- The message group of the system patterns: optional whitespace then
at least one character up to the end of the line; when everything left
is whitespace the regex backtracks so that the capture is exactly the
final whitespace character. -/
def wsMsgPlus (cs : List Char) : Option (List Char) :=
  if cs.isEmpty then none
  else
    let m := cs.dropWhile pyWsChar
    some (if m.isEmpty then cs.drop (cs.length - 1) else m)

/-- Matcher for android_message_re: returns the raw (ts, sender, msg)
captures. -/
def android_message_match (line : String) : Option (String × String × String) := do
  let cs := line.toList
  let rest ← matchAndroidTs cs
  let ts := cs.take (cs.length - rest.length)
  let rest ← wsDash rest
  let (sender, rest) ← senderColon rest
  pure (String.mk ts, String.mk sender, String.mk (rest.dropWhile pyWsChar))

/-- Matcher for android_system_re: returns the raw (ts, msg) captures. -/
def android_system_match (line : String) : Option (String × String) := do
  let cs := line.toList
  let rest ← matchAndroidTs cs
  let ts := cs.take (cs.length - rest.length)
  let rest ← wsDash rest
  let msg ← wsMsgPlus rest
  pure (String.mk ts, String.mk msg)

/-- The trailing character class of the bracketed-timestamp patterns:
colon, digit, whitespace, the letters A P M in either case, or dot. -/
def iosTailChar (c : Char) : Bool :=
  c = ':' || c.isDigit || pyWsChar c || c = 'A' || c = 'P' || c = 'M' ||
  c = 'a' || c = 'p' || c = 'm' || c = '.'

/-- The timestamp group shared by ios_message_re and ios_system_re: one
or more characters that are neither comma nor closing bracket, a comma,
optional whitespace, one-or-two digits, colon, two digits, then any run
of trailing-class characters.  Returns the rest of the line after the
group (positioned before the closing bracket). -/
def matchIosTs (cs : List Char) : Option (List Char) := do
  let (datePart, cs) := takeRun (fun c => !(c = ',' || c = ']')) cs
  if datePart.isEmpty then none
  else do
    let cs ← lit ',' cs
    let cs := (takeRun pyWsChar cs).2
    let cs ← digitRun 1 2 cs
    let cs ← lit ':' cs
    let cs ← exactDigits 2 cs
    pure (takeRun iosTailChar cs).2

/-- Matcher for ios_message_re: returns the raw (ts, sender, msg)
captures. -/
def ios_message_match (line : String) : Option (String × String × String) := do
  let cs0 := line.toList
  let cs ← lit '[' cs0
  let rest ← matchIosTs cs
  let ts := cs.take (cs.length - rest.length)
  let rest ← lit ']' rest
  let (sender, rest) ← senderColon rest
  pure (String.mk ts, String.mk sender, String.mk (rest.dropWhile pyWsChar))

/-- Matcher for ios_system_re: returns the raw (ts, msg) captures. -/
def ios_system_match (line : String) : Option (String × String) := do
  let cs0 := line.toList
  let cs ← lit '[' cs0
  let rest ← matchIosTs cs
  let ts := cs.take (cs.length - rest.length)
  let rest ← lit ']' rest
  let msg ← wsMsgPlus rest
  pure (String.mk ts, String.mk msg)

/-- The Instagram ISO timestamp of ig_text_re up to the optional
fractional seconds: four-digit year, dash, two-digit month, dash,
two-digit day, the letter T, then hours, minutes and seconds of two
digits each separated by colons, then optionally a dot with at least
one digit. -/
def matchIgBase (cs : List Char) : Option (List Char) := do
  let cs ← exactDigits 4 cs
  let cs ← lit '-' cs
  let cs ← exactDigits 2 cs
  let cs ← lit '-' cs
  let cs ← exactDigits 2 cs
  let cs ← lit 'T' cs
  let cs ← exactDigits 2 cs
  let cs ← lit ':' cs
  let cs ← exactDigits 2 cs
  let cs ← lit ':' cs
  let cs ← exactDigits 2 cs
  pure (match cs with
    | '.' :: t =>
      let (run, rest) := takeRun Char.isDigit t
      if run.isEmpty then cs else rest
    | _ => cs)

/-- The numeric timezone-offset alternative of ig_text_re: a sign, two
digits, an optional colon, two digits. -/
def matchIgOffset (cs : List Char) : Option (List Char) :=
  match cs with
  | c :: rest =>
    if c = '+' || c = '-' then do
      let rest ← exactDigits 2 rest
      let rest := match rest with
        | ':' :: t => t
        | _ => rest
      exactDigits 2 rest
    else none
  | [] => none

/-- The tail of ig_text_re after the timestamp group: whitespace, dash,
whitespace, sender group, colon, whitespace, message. -/
def igSenderMsg (cs : List Char) : Option (List Char × List Char) := do
  let cs ← wsDash cs
  let (sender, cs) ← senderColon cs
  pure (sender, cs.dropWhile pyWsChar)

/-- Matcher for ig_text_re: returns the raw (ts, sender, msg) captures.
The optional timezone group (Z or a numeric offset) is genuinely
backtracking: if the offset alternative matches but the rest of the
pattern then fails, the regex engine retries with the group matching
nothing. -/
def ig_text_match (line : String) : Option (String × String × String) :=
  let cs := line.toList
  match matchIgBase cs with
  | none => none
  | some base =>
    let finish : List Char → Option (String × String × String) := fun rest =>
      match igSenderMsg rest with
      | some (sender, msg) =>
        some (String.mk (cs.take (cs.length - rest.length)),
              String.mk sender, String.mk msg)
      | none => none
    match base with
    | 'Z' :: t => finish t
    | _ =>
      match matchIgOffset base with
      | some t =>
        match finish t with
        | some r => some r
        | none => finish base
      | none => finish base

/-- The if/elif chain of ChatParser._parse_text_lines: the five
grammars are tried in the fixed priority order android-message,
ios-message, android-system, ios-system, instagram-text, and only the
first match is applied.  The returned fields are the fields of the
current dict as built by the matching branch (sender and msg stripped,
is_system set per branch); the timestamp string is returned raw, as it
is passed to _parse_timestamp. -/
def classify_line (line : String) : Option (String × Option String × String × Bool) :=
  match android_message_match line with
  | some (ts, sender, msg) => some (ts, some (pystrip sender), pystrip msg, false)
  | none =>
  match ios_message_match line with
  | some (ts, sender, msg) => some (ts, some (pystrip sender), pystrip msg, false)
  | none =>
  match android_system_match line with
  | some (ts, msg) => some (ts, none, pystrip msg, true)
  | none =>
  match ios_system_match line with
  | some (ts, msg) => some (ts, none, pystrip msg, true)
  | none =>
  match ig_text_match line with
  | some (ts, sender, msg) => some (ts, some (pystrip sender), pystrip msg, false)
  | none => none

/-- One normalized message, the dict built by the parser.  The
timestamp type is a parameter: ChatParser._parse_timestamp always
yields a value, so the assembler is independent of its representation;
the JSON path can also leave the timestamp None, hence the Option. -/
structure Msg (T : Type) where
  timestamp : Option T
  sender : Option String
  message : String
  is_system : Bool
deriving DecidableEq

/-- The loop state of _parse_text_lines: the messages output list, the
continuation-line buffer, and the open current message. -/
structure PState (T : Type) where
  messages : List (Msg T)
  buffer : List String
  current : Option (Msg T)
deriving DecidableEq

/-- The flush-time join of _parse_text_lines: the buffered lines are
interleaved with newlines and the result is appended directly to the
already-stored header message text (there is no separator between the
header text and the first buffered line). -/
def joinFlush {T : Type} (cur : Msg T) (buffer : List String) : Msg T :=
  { cur with message := cur.message ++ String.intercalate "\n" buffer }

/-- The media_placeholders set of ChatParser. -/
def media_placeholders : List String :=
  ["<Media omitted>", "[Media omitted]", "[Image]", "[Video]",
   "[Audio]", "[Sticker]", "[Document]", "<attached>", "<Attachment>"]

/-- One iteration of the line loop of _parse_text_lines.  The pts
parameter stands for ChatParser._parse_timestamp. -/
def stepLine {T : Type} (pts : String → T) (st : PState T) (rawLine : String) : PState T :=
  let line := stripNL rawLine
  if line = "" then st
  else
    match classify_line line with
    | some (ts, sender, msg, isSys) =>
      let flushed :=
        match st.current with
        | some cur => if st.buffer.isEmpty then st.messages
                      else st.messages ++ [joinFlush cur st.buffer]
        | none => st.messages
      { messages := flushed, buffer := [],
        current := some { timestamp := some (pts ts), sender := sender,
                          message := msg, is_system := isSys } }
    | none =>
      match st.current with
      | some _ => { st with buffer := st.buffer ++ [line] }
      | none => st

/-- The function ChatParser._parse_text_lines: fold the loop over the
lines, then the end-of-input flush, which joins any remaining buffer
and drops the final message exactly when its text is a media
placeholder. -/
def parse_text_lines {T : Type} (pts : String → T) (lines : List String) : List (Msg T) :=
  let st := lines.foldl (stepLine pts) ⟨[], [], none⟩
  match st.current with
  | none => st.messages
  | some cur =>
    let fin := if st.buffer.isEmpty then cur else joinFlush cur st.buffer
    if media_placeholders.contains fin.message then st.messages
    else st.messages ++ [fin]

/-- The fmts list of _parse_timestamp, in source order (including its
duplicate entry). -/
def timestamp_formats : List String :=
  ["%d/%m/%Y, %I:%M %p", "%d/%m/%y, %I:%M %p", "%d/%m/%Y, %H:%M",
   "%d/%m/%y, %H:%M", "%d/%m/%y, %I:%M:%S %p", "%d/%m/%Y, %I:%M:%S %p",
   "%m/%d/%y, %I:%M %p", "%m/%d/%Y, %I:%M %p", "%d/%m/%y, %I:%M:%S %p",
   "%Y-%m-%dT%H:%M:%S", "%Y-%m-%dT%H:%M:%S.%fZ", "%Y-%m-%dT%H:%M:%S%z"]

/-- The format loop of _parse_timestamp: the first format whose
strptime succeeds wins; none when all fail (every strptime exception is
swallowed and the loop continues). -/
def try_formats {T : Type} (strptime : String → String → Option T) (s : String) :
    List String → Option T
  | [] => none
  | f :: fs =>
    match strptime s f with
    | some t => some t
    | none => try_formats strptime s fs

/-- The function ChatParser._parse_timestamp.  Here strptime models
datetime.strptime with failure as none (the Python code swallows the
exception), fromisoformat models datetime.fromisoformat, and now models
datetime.now().  The function is total: every failure is absorbed by
the next fallback. -/
def parse_timestamp {T : Type} (strptime : String → String → Option T)
    (fromisoformat : String → Option T) (now : T) (ts : String) : T :=
  match try_formats strptime (pystrip ts) timestamp_formats with
  | some t => t
  | none =>
    match fromisoformat (pystrip ts) with
    | some t => t
    | none => now

/-- JSON values, for the _parse_instagram_json path.  Records that are
not JSON objects, and timestamp_ms values that are not numbers, are
outside the modelled domain (CPython raises a TypeError on them before
any message is produced); the claims quantify over object records. -/
inductive JValue where
  | null
  | bool (b : Bool)
  | num (q : ℚ)
  | str (s : String)
  | arr (items : List JValue)
  | obj (entries : List (String × JValue))

/-- Dictionary lookup on an object record (first binding wins). -/
def jLookup (entries : List (String × JValue)) (k : String) : Option JValue :=
  match entries.find? (fun e => e.1 = k) with
  | some e => some e.2
  | none => none

/-- Dictionary lookup restricted to string values, the shape used by
the sender and content fields. -/
def jGetStr (entries : List (String × JValue)) (k : String) : Option String :=
  match jLookup entries k with
  | some (JValue.str s) => some s
  | _ => none

/-- Python or over optional strings: the left operand wins unless it is
absent or empty (falsy). -/
def orStr (a b : Option String) : Option String :=
  match a with
  | some s => if s = "" then b else some s
  | none => b

/-- The timestamp of one JSON record: timestamp_ms (epoch milliseconds,
divided by 1000 and fed to datetime.fromtimestamp, modelled by ftms)
wins over created_at (fed to _parse_timestamp inside a try block; a
non-string value raises there and is absorbed to None); with neither
key present the timestamp stays None. -/
def ig_record_timestamp {T : Type} (pts : String → T) (ftms : ℚ → T)
    (rec : List (String × JValue)) : Option T :=
  match jLookup rec "timestamp_ms" with
  | some (JValue.num ms) => some (ftms (ms / 1000))
  | some _ => none
  | none =>
    match jLookup rec "created_at" with
    | some (JValue.str s) => some (pts s)
    | some _ => none
    | none => none

/-- The message dict appended for one JSON record: the sender falls
through sender_name, sender, None; the content falls through content,
text, the empty string; is_system is always false.  No record is ever
dropped. -/
def ig_record_message {T : Type} (pts : String → T) (ftms : ℚ → T)
    (rec : List (String × JValue)) : Msg T :=
  { timestamp := ig_record_timestamp pts ftms rec
    sender := orStr (jGetStr rec "sender_name") (jGetStr rec "sender")
    message := (orStr (jGetStr rec "content") (jGetStr rec "text")).getD ""
    is_system := false }

/-- The function ChatParser._parse_instagram_json: a dict with a
messages list, a bare array, or anything else (empty result). -/
def parse_instagram_json {T : Type} (pts : String → T) (ftms : ℚ → T)
    (data : JValue) : List (Msg T) :=
  let items : List JValue :=
    match data with
    | JValue.obj entries =>
      match jLookup entries "messages" with
      | some (JValue.arr xs) => xs
      | _ => []
    | JValue.arr xs => xs
    | _ => []
  items.map (fun it =>
    match it with
    | JValue.obj rec => ig_record_message pts ftms rec
    | _ => ig_record_message pts ftms [])

/-- Python str.endswith. -/
def py_endswith (s suffix : String) : Bool :=
  suffix.toList.isSuffixOf s.toList

/-- The function ChatParser.parse_file: the file content is viewed as
physical lines for the text path and as a parsed JSON document for the
JSON path.  The only dispatch is whether the filename ends with the
suffix .json; every other filename — whatever its extension — is parsed
as text lines, and the return type has no error case. -/
def parse_file {T : Type} (pts : String → T) (ftms : ℚ → T)
    (filename : String) (text_lines : List String) (json_data : JValue) : List (Msg T) :=
  if py_endswith filename ".json" then parse_instagram_json pts ftms json_data
  else parse_text_lines pts text_lines

/-- The ALLOWED_EXTENSIONS set of config.py. -/
def allowed_extensions : List String := ["txt", "json"]

/-- The extension as computed by allowed_file in app.py: the substring
after the last dot, lowercased. -/
def file_extension (filename : String) : String :=
  String.mk (((filename.toList.reverse.takeWhile (· ≠ '.')).reverse).map Char.toLower)

/-- The allowed_file predicate of app.py: the filename contains a dot
and its lowercased extension is an allowed one. -/
def allowed_file (filename : String) : Bool :=
  filename.toList.contains '.' && allowed_extensions.contains (file_extension filename)

/-- The bucket chain of _analyze_response_times_detailed applied to a
retained response gap in minutes: below 1 instant, below 5 very_fast,
below 15 fast, below 60 medium, below 180 slow, below 1440 very_slow,
else delivered. -/
def response_bucket (time_diff : ℚ) : String :=
  if time_diff < 1 then "instant"
  else if time_diff < 5 then "very_fast"
  else if time_diff < 15 then "fast"
  else if time_diff < 60 then "medium"
  else if time_diff < 180 then "slow"
  else if time_diff < 1440 then "very_slow"
  else "delivered"

/-- The retention window for a sender-change gap: strictly between 0
and 10080 minutes. -/
def response_gap_retained (time_diff : ℚ) : Bool :=
  0 < time_diff && time_diff < 10080

/-- The stop_words set of ChatAnalyzer, as written in the source (its
duplicates are harmless for membership). -/
def stop_words : List String :=
  ["i", "me", "my", "myself", "we", "our", "ours", "ourselves", "you", "your", "yours",
   "yourself", "yourselves", "he", "him", "his", "himself", "she", "her", "hers", "herself",
   "it", "its", "itself", "they", "them", "their", "theirs", "themselves", "what", "which",
   "who", "whom", "this", "that", "these", "those", "am", "is", "are", "was", "were", "be",
   "been", "being", "have", "has", "had", "having", "do", "does", "did", "doing", "a", "an",
   "the", "and", "but", "if", "or", "because", "as", "until", "while", "of", "at", "by",
   "for", "with", "through", "during", "before", "after", "above", "below", "up", "down",
   "in", "out", "on", "off", "over", "under", "again", "further", "then", "once", "will",
   "would", "should", "could", "can", "may", "might", "must", "shall", "to", "from", "up",
   "down", "in", "out", "on", "off", "over", "under", "again", "further", "then", "once",
   "here", "there", "when", "where", "why", "how", "all", "any", "both", "each", "few",
   "more", "most", "other", "some", "such", "no", "nor", "not", "only", "own", "same", "so",
   "than", "too", "very"]

/-- Python word-character class at its ASCII meaning: alphanumeric or
underscore. -/
def word_char (c : Char) : Bool := c.isAlphanum || c = '_'

/-- Worker for whitespace splitting. -/
def ws_split_go : List Char → List Char → List (List Char)
  | [], acc => if acc.isEmpty then [] else [acc.reverse]
  | c :: rest, acc =>
    if pyWsChar c then
      if acc.isEmpty then ws_split_go rest []
      else acc.reverse :: ws_split_go rest []
    else ws_split_go rest (c :: acc)

/-- Python str.split with no argument: split on whitespace runs, with
no empty fields. -/
def ws_split (cs : List Char) : List (List Char) := ws_split_go cs []

/-- The tokenizer ChatAnalyzer._extract_words: replace every character
that is neither a word character nor whitespace by a space (the re.sub
call), lowercase, split on whitespace, and keep the words that are not
stop-words and are longer than 2 characters. -/
def extract_words (text : String) : List String :=
  let cleaned := text.toList.map (fun c => if word_char c || pyWsChar c then c else ' ')
  let words := (ws_split cleaned).map (fun w => String.mk (w.map Char.toLower))
  words.filter (fun w => !stop_words.contains w && w.length > 2)

/-- Incrementing a key of a defaultdict of ints: insertion order is
preserved and a missing key is created, even when the added value is
zero. -/
def upsert (k : Option String) (v : Nat) :
    List (Option String × Nat) → List (Option String × Nat)
  | [] => [(k, v)]
  | (k', v') :: rest =>
    if k' = k then (k', v' + v) :: rest else (k', v') :: upsert k v rest

/-- The pass ChatAnalyzer._calculate_word_counts: per-sender total of
extracted words.  A sender all of whose messages produce no words still
gets an entry, with count 0. -/
def calculate_word_counts {T : Type} (msgs : List (Msg T)) : List (Option String × Nat) :=
  msgs.foldl (fun acc m => upsert m.sender (extract_words m.message).length acc) []

/-- The Counter over message senders built by analyze_chat: per-sender
message counts, insertion-ordered. -/
def calculate_message_counts {T : Type} (msgs : List (Msg T)) : List (Option String × Nat) :=
  msgs.foldl (fun acc m => upsert m.sender 1 acc) []

/-- Maximum of the values of a counts dict (callers only reach it with
a non-empty dict, where it agrees with the Python max builtin). -/
def max_values (l : List (Option String × Nat)) : Nat :=
  (l.map Prod.snd).foldl Nat.max 0

/-- Subscript access for a key known to be present (the 0 default is
never hit on the paths used here). -/
def lookup0 (l : List (Option String × Nat)) (k : Option String) : Nat :=
  match l.find? (fun e => e.1 = k) with
  | some e => e.2
  | none => 0

/-- Outcome of the first two balance terms of
ChatAnalyzer._calculate_compatibility_index.  The zeroDivision
constructor marks the path where the Python code raises
ZeroDivisionError: the word_balance ratio divides by the maximum of the
word-count values with no guard (unlike affection_balance two lines
below it in the source, which is guarded and substitutes 0.5). -/
inductive CompatBalanceOutcome where
  | singlePerson
  | zeroDivision
  | balances (msg_balance word_balance : ℚ)
deriving DecidableEq

/-- The guard and the msg_balance and word_balance computations of
_calculate_compatibility_index, in source order. -/
def compat_balances {T : Type} (msgs : List (Msg T)) : CompatBalanceOutcome :=
  let message_counts := calculate_message_counts msgs
  if message_counts.length < 2 then CompatBalanceOutcome.singlePerson
  else
    let senders := message_counts.map Prod.fst
    let s0 := senders.getD 0 none
    let s1 := senders.getD 1 none
    let msg_balance : ℚ :=
      1 - (((lookup0 message_counts s0 : ℤ) - lookup0 message_counts s1).natAbs : ℚ)
            / (max_values message_counts : ℚ)
    let word_counts := calculate_word_counts msgs
    if max_values word_counts = 0 then CompatBalanceOutcome.zeroDivision
    else CompatBalanceOutcome.balances msg_balance
      (1 - (((lookup0 word_counts s0 : ℤ) - lookup0 word_counts s1).natAbs : ℚ)
            / (max_values word_counts : ℚ))

/-!
Supporting lemmas.
-/

/-- The empty line matches none of the grammars. -/
lemma classify_line_empty : classify_line "" = none := by decide

/-- A line that strips to the empty string leaves the loop state
untouched. -/
lemma stepLine_blank {T : Type} (pts : String → T) (st : PState T) (l : String)
    (h : stripNL l = "") : stepLine pts st l = st := by
  simp [stepLine, h]

/-- Unfolding one loop step on a header line: any open message with a
non-empty buffer is flushed — with no filtering of any kind — and a
fresh message is opened with an empty buffer. -/
lemma stepLine_header {T : Type} (pts : String → T) (st : PState T) (l : String)
    (ts : String) (sd : Option String) (msg : String) (sys : Bool)
    (h : classify_line (stripNL l) = some (ts, sd, msg, sys)) :
    stepLine pts st l =
      { messages :=
          match st.current with
          | some cur => if st.buffer.isEmpty then st.messages
                        else st.messages ++ [joinFlush cur st.buffer]
          | none => st.messages,
        buffer := [],
        current := some { timestamp := some (pts ts), sender := sd,
                          message := msg, is_system := sys } } := by
  have hne : stripNL l ≠ "" := by
    intro he
    rw [he, classify_line_empty] at h
    exact Option.noConfusion h
  simp [stepLine, hne, h]

/-- Unfolding one loop step on a continuation line while a message is
open: the line is appended to the buffer. -/
lemma stepLine_noMatch_acc {T : Type} (pts : String → T) (ms : List (Msg T))
    (bs : List String) (cur : Msg T) (l : String)
    (h1 : stripNL l ≠ "") (h2 : classify_line (stripNL l) = none) :
    stepLine pts ⟨ms, bs, some cur⟩ l = ⟨ms, bs ++ [stripNL l], some cur⟩ := by
  simp [stepLine, h1, h2]

/-- Folding the loop over continuation lines only: the buffer
accumulates the stripped lines, in order; messages and the open message
are unchanged. -/
lemma foldl_noMatch {T : Type} (pts : String → T) (cs : List String)
    (h : ∀ c ∈ cs, stripNL c ≠ "" ∧ classify_line (stripNL c) = none) :
    ∀ (ms : List (Msg T)) (bs : List String) (cur : Msg T),
      cs.foldl (stepLine pts) ⟨ms, bs, some cur⟩ = ⟨ms, bs ++ cs.map stripNL, some cur⟩ := by
  induction cs with
  | nil => intro ms bs cur; simp
  | cons c cs ih =>
    intro ms bs cur
    have hc := h c (List.mem_cons_self c cs)
    have hrest : ∀ x ∈ cs, stripNL x ≠ "" ∧ classify_line (stripNL x) = none :=
      fun x hx => h x (List.mem_cons_of_mem c hx)
    rw [List.foldl_cons, stepLine_noMatch_acc pts ms bs cur c hc.1 hc.2, ih hrest]
    simp

/-- Joining an empty buffer leaves the message unchanged. -/
lemma joinFlush_nil {T : Type} (cur : Msg T) : joinFlush cur [] = cur := by
  have h : cur.message ++ String.intercalate "\n" [] = cur.message := by
    show cur.message ++ "" = cur.message
    exact String.ext (by simp [String.data_append])
  simp [joinFlush, h]

/-!
The claims.
-/

/-- C4 (confirmed): the line 12/01/2024, 10:00 - Alice: hi matches both
the dash-timestamp-with-sender grammar (android_message_re) and the
dash-timestamp-system-only grammar (android_system_re); the if/elif
chain applies only the first match in priority order, so the line is
classified by the with-sender grammar, yielding sender Alice, message
hi and is_system false — never a system line. -/
theorem grammar_priority_first_match :
    android_message_match "12/01/2024, 10:00 - Alice: hi"
      = some ("12/01/2024, 10:00", "Alice", "hi")
    ∧ android_system_match "12/01/2024, 10:00 - Alice: hi"
      = some ("12/01/2024, 10:00", "Alice: hi")
    ∧ classify_line "12/01/2024, 10:00 - Alice: hi"
      = some ("12/01/2024, 10:00", some "Alice", "hi", false) := by
  refine ⟨by decide, by decide, by decide⟩

/-- C10 (confirmed): a physical line that is empty after stripping
newline and carriage-return characters is discarded before
classification, so parsing with it is identical to parsing without it
— in particular it is never appended as continuation text while a
message is open. -/
theorem blank_line_discarded {T : Type} (pts : String → T)
    (a b : List String) (l : String) (h : stripNL l = "") :
    parse_text_lines pts (a ++ l :: b) = parse_text_lines pts (a ++ b) := by
  have hfold : ∀ st : PState T,
      (a ++ l :: b).foldl (stepLine pts) st = (a ++ b).foldl (stepLine pts) st := by
    intro st
    rw [List.foldl_append, List.foldl_append, List.foldl_cons, stepLine_blank pts _ l h]
  simp only [parse_text_lines, hfold]

/-- Witness for C10: with a concrete log containing a blank line inside
a multi-line message, the parse equals the parse of the log without the
blank line. -/
theorem blank_line_discarded_witness :
    parse_text_lines (fun ts => ts)
        (["12/01/2024, 10:00 - Alice: hi"] ++ "\r\n" :: ["world", "12/01/2024, 10:01 - Bob: ok"])
      = parse_text_lines (fun ts => ts)
        (["12/01/2024, 10:00 - Alice: hi"] ++ ["world", "12/01/2024, 10:01 - Bob: ok"]) :=
  blank_line_discarded (fun ts => ts) _ _ "\r\n" (by decide)

/-- C1 counterexample: on a header line with text hi followed by the
single continuation line there, the assembled message text is hithere —
the header text and the first continuation line are concatenated with
no newline between them — while the claim predicts the newline-joined
text. -/
theorem parse_continuation_no_separator :
    (parse_text_lines (fun ts => ts)
        ["12/01/2024, 10:00 - Alice: hi", "there", "12/01/2024, 10:05 - Bob: yo"]).map
      Msg.message = ["hithere", "yo"]
    ∧ ("hithere" : String) ≠ "hi\nthere" := by
  refine ⟨by decide, by decide⟩

/-- C3 counterexample: a message whose joined text is exactly the media
placeholder sentinel is appended anyway when it is flushed by a later
header line, and an open message with empty text is appended at the
end-of-input flush — the placeholder filter runs only at end of input
and there is no empty/whitespace filter at all. -/
theorem flush_filter_counterexample :
    (parse_text_lines (fun ts => ts)
        ["12/01/2024, 10:00 - Alice:", "<Media omitted>", "12/01/2024, 11:00 - Bob: hi"]).map
      Msg.message = ["<Media omitted>", "hi"]
    ∧ (parse_text_lines (fun ts => ts) ["12/01/2024, 10:00 - Alice:"]).map Msg.message = [""]
    ∧ media_placeholders.contains "<Media omitted>" = true := by
  refine ⟨by decide, by decide, by decide⟩

/-- C6 counterexample: a gap of exactly 1.0 minute is bucketed as
very_fast, not fast as the claim states (the bucket below 5 minutes is
very_fast; fast is the bucket below 15). -/
theorem response_bucket_one_minute :
    response_bucket 1 = "very_fast" ∧ ("very_fast" : String) ≠ "fast" := by
  refine ⟨by decide, by decide⟩

/-- C7 counterexample: a JSON record with no sender and no content
fields is not dropped — it yields exactly one message with sender None
and empty text. -/
theorem json_record_kept_counterexample :
    parse_instagram_json (T := Unit) (fun _ => ()) (fun _ => ())
        (JValue.arr [JValue.obj []])
      = [{ timestamp := none, sender := none, message := "", is_system := false }]
    ∧ ([{ timestamp := none, sender := none, message := "", is_system := false }] :
        List (Msg Unit)) ≠ [] := by
  refine ⟨rfl, by decide⟩

/-- C8 counterexample: a filename with the unsupported extension exe is
not rejected by parse_file — the file is parsed on the text path and
yields a successful, non-empty message list (the parser has no error
outcome at all), while the app-level allowed_file gate is what rejects
such extensions. -/
theorem parse_file_accepts_unknown_extension :
    parse_file (T := String) (fun ts => ts) (fun _ => "") "chat.exe"
        ["12/01/2024, 10:00 - Alice: hi", "yo"] JValue.null
      = [{ timestamp := some "12/01/2024, 10:00", sender := some "Alice",
           message := "hiyo", is_system := false }]
    ∧ allowed_file "chat.exe" = false := by
  refine ⟨by decide, by decide⟩

/-- C9 counterexample: a JSON record carrying a sender and content but
neither a timestamp_ms nor a created_at field produces a message whose
timestamp is None. -/
theorem json_timestamp_none_counterexample :
    (parse_instagram_json (T := Unit) (fun _ => ()) (fun _ => ())
        (JValue.arr [JValue.obj [("sender_name", JValue.str "A"),
                                 ("content", JValue.str "hi")]])).map Msg.timestamp
      = [none] := by
  rfl

/-- C5 (code_bug): with two senders A and B whose only messages have
text ok — a token of length 2, which the tokenizer always drops — the
two-sender branch of the compatibility index is taken while every
word count is zero, so the word_balance ratio divides by
max(word_counts.values()) = 0: the Python code raises
ZeroDivisionError there, contradicting the specified guarantee that
every ratio computation is guarded and the engine never raises. -/
theorem compat_word_balance_zero_division :
    calculate_word_counts (T := Unit)
        [{ timestamp := some (), sender := some "A", message := "ok", is_system := false },
         { timestamp := some (), sender := some "B", message := "ok", is_system := false }]
      = [(some "A", 0), (some "B", 0)]
    ∧ (calculate_message_counts (T := Unit)
        [{ timestamp := some (), sender := some "A", message := "ok", is_system := false },
         { timestamp := some (), sender := some "B", message := "ok", is_system := false }]).length
      = 2
    ∧ compat_balances (T := Unit)
        [{ timestamp := some (), sender := some "A", message := "ok", is_system := false },
         { timestamp := some (), sender := some "B", message := "ok", is_system := false }]
      = CompatBalanceOutcome.zeroDivision := by
  refine ⟨by decide, by decide, by decide⟩

/-- C1 (corrected): from any loop state, a header line followed by N
(at least one) consecutive lines matching no grammar and then another
header line produces exactly one assembled message for the first
header; its text is the header message directly concatenated — with no
separator — with the N stripped continuation lines joined together by
newlines, in original order. -/
theorem parse_continuation_join {T : Type} (pts : String → T) (st0 : PState T)
    (h h' : String) (hts hmsg : String) (hsd : Option String) (hsys : Bool)
    (ts' msg' : String) (sd' : Option String) (sys' : Bool) (cs : List String)
    (hH : classify_line (stripNL h) = some (hts, hsd, hmsg, hsys))
    (hcs : ∀ c ∈ cs, stripNL c ≠ "" ∧ classify_line (stripNL c) = none)
    (hne : cs ≠ [])
    (hH' : classify_line (stripNL h') = some (ts', sd', msg', sys')) :
    ((h :: (cs ++ [h'])).foldl (stepLine pts) st0).messages
      = (stepLine pts st0 h).messages
        ++ [{ timestamp := some (pts hts), sender := hsd,
              message := hmsg ++ String.intercalate "\n" (cs.map stripNL),
              is_system := hsys }] := by
  rw [List.foldl_cons]
  rw [stepLine_header pts st0 h hts hsd hmsg hsys hH]
  rw [List.foldl_append]
  rw [foldl_noMatch pts cs hcs]
  rw [List.foldl_cons, List.foldl_nil]
  rw [stepLine_header pts _ h' ts' sd' msg' sys' hH']
  have hmap : ((cs.map stripNL).isEmpty) = false := by
    cases cs with
    | nil => exact absurd rfl hne
    | cons x xs => rfl
  simp [stepLine_header pts st0 h hts hsd hmsg hsys hH, hmap, joinFlush]

/-- Witness for C1: a concrete header line with one continuation line,
flushed by a second header line; the single assembled message is as
the theorem states. -/
theorem parse_continuation_join_witness :
    ((("12/01/2024, 10:00 - Alice: hi") :: (["there"] ++ ["12/01/2024, 10:05 - Bob: yo"])).foldl
        (stepLine (fun ts => ts)) ⟨[], [], none⟩).messages
      = (stepLine (fun ts => ts) ⟨[], [], none⟩ "12/01/2024, 10:00 - Alice: hi").messages
        ++ [{ timestamp := some "12/01/2024, 10:00", sender := some "Alice",
              message := "hi" ++ String.intercalate "\n" (["there"].map stripNL),
              is_system := false }] :=
  parse_continuation_join (fun ts => ts) ⟨[], [], none⟩
    "12/01/2024, 10:00 - Alice: hi" "12/01/2024, 10:05 - Bob: yo"
    "12/01/2024, 10:00" "hi" (some "Alice") false
    "12/01/2024, 10:05" "yo" (some "Bob") false ["there"]
    (by decide) (by decide) (by decide) (by decide)

/-- C3 (corrected): filtering does not happen at every flush.  A flush
triggered by a new header line appends the joined message
unconditionally, whatever its text — placeholder or empty; only the
end-of-input flush applies a filter, and that filter drops the final
message exactly when its joined text equals a media placeholder — an
empty or whitespace-only text is kept. -/
theorem flush_filter_policy {T : Type} (pts : String → T) :
    (∀ (st : PState T) (line ts msg : String) (sd : Option String) (sys : Bool)
        (cur : Msg T),
        classify_line (stripNL line) = some (ts, sd, msg, sys) →
        st.current = some cur → st.buffer ≠ [] →
        (stepLine pts st line).messages = st.messages ++ [joinFlush cur st.buffer])
    ∧ (∀ (lines : List String) (cur : Msg T),
        (lines.foldl (stepLine pts) ⟨[], [], none⟩).current = some cur →
        parse_text_lines pts lines =
          (lines.foldl (stepLine pts) ⟨[], [], none⟩).messages ++
            (if media_placeholders.contains
                (joinFlush cur (lines.foldl (stepLine pts) ⟨[], [], none⟩).buffer).message
             then []
             else [joinFlush cur (lines.foldl (stepLine pts) ⟨[], [], none⟩).buffer])) := by
  constructor
  · intro st line ts msg sd sys cur hcl hcur hbuf
    rw [stepLine_header pts st line ts sd msg sys hcl]
    have hbe : st.buffer.isEmpty = false := by
      cases hb : st.buffer with
      | nil => exact absurd hb hbuf
      | cons x xs => rfl
    simp [hcur, hbe]
  · intro lines cur hcur
    simp only [parse_text_lines, hcur]
    cases hb : (lines.foldl (stepLine pts) ⟨[], [], none⟩).buffer with
    | nil =>
      simp only [List.isEmpty_nil, if_true, joinFlush_nil]
      split <;> simp_all
    | cons x xs =>
      simp only [List.isEmpty_cons, Bool.false_eq_true, if_false]
      split <;> simp_all

/-- Witness for C3: from a state holding an open message with empty
text and the single buffered line Media-omitted-placeholder, a concrete
header line flushes and appends the placeholder-texted message. -/
theorem flush_filter_policy_witness :
    (stepLine (fun ts => ts)
        ⟨[], ["<Media omitted>"],
         some { timestamp := some "t", sender := some "Alice",
                message := "", is_system := false }⟩
        "12/01/2024, 11:00 - Bob: hi").messages
      = [] ++ [joinFlush
          { timestamp := some "t", sender := some "Alice",
            message := "", is_system := false } ["<Media omitted>"]] :=
  (flush_filter_policy (fun ts => ts)).1
    ⟨[], ["<Media omitted>"],
     some { timestamp := some "t", sender := some "Alice",
            message := "", is_system := false }⟩
    "12/01/2024, 11:00 - Bob: hi" "12/01/2024, 11:00" "hi" (some "Bob") false
    { timestamp := some "t", sender := some "Alice", message := "", is_system := false }
    (by decide) rfl (by decide)

/-- Case analysis for the format loop: either every format fails and
the loop yields none, or some format succeeds, the loop yields its
value, and every earlier format fails. -/
lemma try_formats_cases {T : Type} (strp : String → String → Option T) (s : String) :
    ∀ fs : List String,
      ((∀ f ∈ fs, strp s f = none) ∧ try_formats strp s fs = none)
      ∨ (∃ i f t, fs.get? i = some f ∧ strp s f = some t
          ∧ try_formats strp s fs = some t
          ∧ ∀ j g, j < i → fs.get? j = some g → strp s g = none) := by
  intro fs
  induction fs with
  | nil => exact Or.inl ⟨fun f hf => absurd hf (List.not_mem_nil f), rfl⟩
  | cons f fs ih =>
    cases hf : strp s f with
    | some t =>
      refine Or.inr ⟨0, f, t, rfl, hf, ?_, ?_⟩
      · simp [try_formats, hf]
      · intro j g hj
        exact absurd hj (Nat.not_lt_zero j)
    | none =>
      cases ih with
      | inl h =>
        refine Or.inl ⟨?_, ?_⟩
        · intro g hg
          rcases List.mem_cons.mp hg with hg | hg
          · rw [hg]; exact hf
          · exact h.1 g hg
        · simp [try_formats, hf, h.2]
      | inr h =>
        obtain ⟨i, g, t, hget, hstrp, heq, hprev⟩ := h
        refine Or.inr ⟨i + 1, g, t, by simpa using hget, hstrp, ?_, ?_⟩
        · simp [try_formats, hf, heq]
        · intro j g' hj hget'
          cases j with
          | zero =>
            have hfe : f = g' := by simpa using hget'
            rw [← hfe]; exact hf
          | succ j =>
            exact hprev j g' (Nat.lt_of_succ_lt_succ hj) (by simpa using hget')

/-- C2 (confirmed): timestamp parsing is total and never raises — the
result of _parse_timestamp is always a value, characterized by the
fallback chain: either some format of the fixed ordered list is the
first to succeed on the stripped input and its value is returned, or
every format fails and the general ISO parse (fromisoformat) succeeds
and is returned, or that also fails and the current wall-clock time is
returned. -/
theorem parse_timestamp_fallback_chain {T : Type}
    (strp : String → String → Option T) (iso : String → Option T) (now : T) (ts : String) :
    (∃ i f, timestamp_formats.get? i = some f
        ∧ strp (pystrip ts) f = some (parse_timestamp strp iso now ts)
        ∧ ∀ j g, j < i → timestamp_formats.get? j = some g → strp (pystrip ts) g = none)
    ∨ ((∀ f ∈ timestamp_formats, strp (pystrip ts) f = none)
        ∧ (iso (pystrip ts) = some (parse_timestamp strp iso now ts)
           ∨ (iso (pystrip ts) = none ∧ parse_timestamp strp iso now ts = now))) := by
  rcases try_formats_cases strp (pystrip ts) timestamp_formats with h | h
  · refine Or.inr ⟨h.1, ?_⟩
    cases hiso : iso (pystrip ts) with
    | some t =>
      refine Or.inl ?_
      simp [parse_timestamp, h.2, hiso]
    | none =>
      refine Or.inr ⟨rfl, ?_⟩
      simp [parse_timestamp, h.2, hiso]
  · obtain ⟨i, f, t, hget, hstrp, heq, hprev⟩ := h
    refine Or.inl ⟨i, f, hget, ?_, hprev⟩
    have hpt : parse_timestamp strp iso now ts = t := by
      simp [parse_timestamp, heq]
    rw [hpt]; exact hstrp

/-- Invariant of the text-line loop: every produced message and the
open message carry a present timestamp. -/
def TsPresent {T : Type} (st : PState T) : Prop :=
  (∀ m ∈ st.messages, m.timestamp ≠ none)
  ∧ (∀ cur, st.current = some cur → cur.timestamp ≠ none)

/-- One loop step preserves the timestamp-presence invariant. -/
lemma stepLine_tsPresent {T : Type} (pts : String → T) (st : PState T) (l : String)
    (h : TsPresent st) : TsPresent (stepLine pts st l) := by
  by_cases hb : stripNL l = ""
  · rw [stepLine_blank pts st l hb]; exact h
  · cases hcl : classify_line (stripNL l) with
    | some v =>
      obtain ⟨ts, sd, msg, sys⟩ := v
      rw [stepLine_header pts st l ts sd msg sys hcl]
      constructor
      · intro m hm
        cases hcur : st.current with
        | none =>
          simp only [hcur] at hm
          exact h.1 m hm
        | some cur =>
          simp only [hcur] at hm
          by_cases hbe : st.buffer.isEmpty
          · rw [if_pos hbe] at hm
            exact h.1 m hm
          · rw [if_neg hbe] at hm
            rcases List.mem_append.mp hm with hm | hm
            · exact h.1 m hm
            · have hm' : m = joinFlush cur st.buffer := List.mem_singleton.mp hm
              rw [hm']
              exact h.2 cur hcur

      · intro cur hcur
        injection hcur with hcur
        rw [← hcur]
        exact Option.noConfusion
    | none =>
      simp only [stepLine, if_neg hb, hcl]
      cases hcur : st.current with
      | none => simpa [hcur] using h
      | some cur =>
        refine ⟨h.1, ?_⟩
        intro c hc
        injection hc with hc
        rw [← hc]
        exact h.2 cur hcur

/-- The whole fold preserves the timestamp-presence invariant. -/
lemma foldl_tsPresent {T : Type} (pts : String → T) (lines : List String) :
    ∀ st : PState T, TsPresent st → TsPresent (lines.foldl (stepLine pts) st) := by
  induction lines with
  | nil => intro st h; exact h
  | cons l ls ih =>
    intro st h
    exact ih _ (stepLine_tsPresent pts st l h)

/-- C9 (corrected): every message produced on the text-line path
carries a present timestamp (the parser always stores the result of
_parse_timestamp), but on the JSON path the timestamp is present
exactly when the record carries a timestamp_ms number or a created_at
string; a record with neither yields a message whose timestamp is
None. -/
theorem timestamp_presence {T : Type} (pts : String → T) (ftms : ℚ → T) :
    (∀ (lines : List String) (m : Msg T),
        m ∈ parse_text_lines pts lines → m.timestamp ≠ none)
    ∧ (∀ rec : List (String × JValue),
        jLookup rec "timestamp_ms" = none → jLookup rec "created_at" = none →
        (ig_record_message pts ftms rec).timestamp = none)
    ∧ (∀ (rec : List (String × JValue)) (q : ℚ),
        jLookup rec "timestamp_ms" = some (JValue.num q) →
        (ig_record_message pts ftms rec).timestamp = some (ftms (q / 1000)))
    ∧ (∀ (rec : List (String × JValue)) (s : String),
        jLookup rec "timestamp_ms" = none → jLookup rec "created_at" = some (JValue.str s) →
        (ig_record_message pts ftms rec).timestamp = some (pts s)) := by
  refine ⟨?_, ?_, ?_, ?_⟩
  · intro lines m hm
    have hinv : TsPresent (lines.foldl (stepLine pts) ⟨[], [], none⟩) := by
      refine foldl_tsPresent pts lines _ ⟨?_, ?_⟩
      · intro m hm; cases hm
      · intro cur hcur; cases hcur
    revert hm
    simp only [parse_text_lines]
    cases hcur : (lines.foldl (stepLine pts) ⟨[], [], none⟩).current with
    | none =>
      intro hm
      exact hinv.1 m hm
    | some cur =>
      have hts : cur.timestamp ≠ none := hinv.2 cur hcur
      by_cases hbe : (lines.foldl (stepLine pts) ⟨[], [], none⟩).buffer.isEmpty
      · simp only [if_pos hbe]
        split
        · intro hm; exact hinv.1 m hm
        · intro hm
          rcases List.mem_append.mp hm with hm | hm
          · exact hinv.1 m hm
          · rw [List.mem_singleton.mp hm]; exact hts
      · simp only [if_neg hbe]
        split
        · intro hm; exact hinv.1 m hm
        · intro hm
          rcases List.mem_append.mp hm with hm | hm
          · exact hinv.1 m hm
          · rw [List.mem_singleton.mp hm]; exact hts
  · intro rec h1 h2
    simp [ig_record_message, ig_record_timestamp, h1, h2]
  · intro rec q h1
    simp [ig_record_message, ig_record_timestamp, h1]
  · intro rec s h1 h2
    simp [ig_record_message, ig_record_timestamp, h1, h2]

/-- Witness for C9: the single message parsed from a concrete header
line carries a present timestamp, and a concrete JSON record with
sender and content but no timestamp field yields timestamp None. -/
theorem timestamp_presence_witness :
    ({ timestamp := some "12/01/2024, 10:00", sender := some "Carol",
       message := "hey", is_system := false } : Msg String).timestamp ≠ none
    ∧ (ig_record_message (fun ts => ts) (fun _ => "")
        [("sender_name", JValue.str "A"), ("content", JValue.str "hi")]).timestamp = none :=
  ⟨(timestamp_presence (fun ts => ts) (fun _ => "")).1
      ["12/01/2024, 10:00 - Carol: hey"] _ (by decide),
   (timestamp_presence (fun ts => ts) (fun _ => "")).2.1
      [("sender_name", JValue.str "A"), ("content", JValue.str "hi")] rfl rfl⟩

/-- C7 (corrected): the JSON ingestion path never drops a record — each
object record of the batch yields exactly one message (with sender
falling back to None and content to the empty string when missing), so
a malformed record is not fatal to the batch and is not removed from
the parser output either. -/
theorem json_records_never_dropped {T : Type} (pts : String → T) (ftms : ℚ → T)
    (recs : List (List (String × JValue))) :
    parse_instagram_json pts ftms (JValue.arr (recs.map JValue.obj))
      = recs.map (ig_record_message pts ftms) := by
  simp only [parse_instagram_json, List.map_map]
  rfl

/-- C8 (corrected): parse_file performs no extension validation — any
filename not ending in .json is parsed on the text-line path (there is
no typed error), and rejection of unsupported extensions happens
upstream, in the app layer, whose allowed_file gate refuses any
extension outside the allowed set. -/
theorem parse_file_no_extension_gate {T : Type} (pts : String → T) (ftms : ℚ → T)
    (filename : String) (lines : List String) (jd : JValue)
    (h : py_endswith filename ".json" = false) :
    parse_file pts ftms filename lines jd = parse_text_lines pts lines
    ∧ (allowed_extensions.contains (file_extension filename) = false →
        allowed_file filename = false) := by
  constructor
  · simp [parse_file, h]
  · intro hx
    simp only [allowed_file, hx, Bool.and_false]

/-- Witness for C8: a concrete filename with extension docx goes to the
text path and is refused by the app-layer gate. -/
theorem parse_file_no_extension_gate_witness :
    parse_file (T := String) (fun ts => ts) (fun _ => "") "notes.docx" ["hello"] JValue.null
      = parse_text_lines (fun ts => ts) ["hello"]
    ∧ allowed_file "notes.docx" = false :=
  ⟨(parse_file_no_extension_gate (fun ts => ts) (fun _ => "") "notes.docx" ["hello"]
      JValue.null (by decide)).1,
   (parse_file_no_extension_gate (fun ts => ts) (fun _ => "") "notes.docx" ["hello"]
      JValue.null (by decide)).2 (by decide)⟩

/-- C6 (corrected): the bucket boundaries are exclusive on the lower
bucket and inclusive upward at the boundary values 1, 5, 15, 60, 180
and 1440 — in particular a gap of exactly 1.0 minute falls in
very_fast (not instant, and not fast as the claim stated; the claim
also omitted the boundary at 5). -/
theorem response_bucket_boundaries :
    (∀ q : ℚ, 0 < q → q < 1 → response_bucket q = "instant")
    ∧ (∀ q : ℚ, 1 ≤ q → q < 5 → response_bucket q = "very_fast")
    ∧ (∀ q : ℚ, 5 ≤ q → q < 15 → response_bucket q = "fast")
    ∧ (∀ q : ℚ, 15 ≤ q → q < 60 → response_bucket q = "medium")
    ∧ (∀ q : ℚ, 60 ≤ q → q < 180 → response_bucket q = "slow")
    ∧ (∀ q : ℚ, 180 ≤ q → q < 1440 → response_bucket q = "very_slow")
    ∧ (∀ q : ℚ, 1440 ≤ q → response_bucket q = "delivered")
    ∧ response_bucket 1 = "very_fast" ∧ response_bucket 5 = "fast"
    ∧ response_bucket 15 = "medium" ∧ response_bucket 60 = "slow"
    ∧ response_bucket 180 = "very_slow" ∧ response_bucket 1440 = "delivered" := by
  refine ⟨?_, ?_, ?_, ?_, ?_, ?_, ?_, by decide, by decide, by decide, by decide,
    by decide, by decide⟩
  · intro q _ h2
    simp [response_bucket, h2]
  · intro q h1 h2
    have n1 : ¬ q < 1 := not_lt.mpr (by linarith)
    simp [response_bucket, n1, h2]
  · intro q h1 h2
    have n1 : ¬ q < 1 := not_lt.mpr (by linarith)
    have n5 : ¬ q < 5 := not_lt.mpr (by linarith)
    simp [response_bucket, n1, n5, h2]
  · intro q h1 h2
    have n1 : ¬ q < 1 := not_lt.mpr (by linarith)
    have n5 : ¬ q < 5 := not_lt.mpr (by linarith)
    have n15 : ¬ q < 15 := not_lt.mpr (by linarith)
    simp [response_bucket, n1, n5, n15, h2]
  · intro q h1 h2
    have n1 : ¬ q < 1 := not_lt.mpr (by linarith)
    have n5 : ¬ q < 5 := not_lt.mpr (by linarith)
    have n15 : ¬ q < 15 := not_lt.mpr (by linarith)
    have n60 : ¬ q < 60 := not_lt.mpr (by linarith)
    simp [response_bucket, n1, n5, n15, n60, h2]
  · intro q h1 h2
    have n1 : ¬ q < 1 := not_lt.mpr (by linarith)
    have n5 : ¬ q < 5 := not_lt.mpr (by linarith)
    have n15 : ¬ q < 15 := not_lt.mpr (by linarith)
    have n60 : ¬ q < 60 := not_lt.mpr (by linarith)
    have n180 : ¬ q < 180 := not_lt.mpr (by linarith)
    simp [response_bucket, n1, n5, n15, n60, n180, h2]
  · intro q h1
    have n1 : ¬ q < 1 := not_lt.mpr (by linarith)
    have n5 : ¬ q < 5 := not_lt.mpr (by linarith)
    have n15 : ¬ q < 15 := not_lt.mpr (by linarith)
    have n60 : ¬ q < 60 := not_lt.mpr (by linarith)
    have n180 : ¬ q < 180 := not_lt.mpr (by linarith)
    have n1440 : ¬ q < 1440 := not_lt.mpr (by linarith)
    simp [response_bucket, n1, n5, n15, n60, n180, n1440]

/-- Witness for C6: a half-minute gap is instant and a three-minute gap
is very_fast, via the interval clauses of the boundary theorem. -/
theorem response_bucket_boundaries_witness :
    response_bucket (1 / 2) = "instant" ∧ response_bucket 3 = "very_fast" :=
  ⟨response_bucket_boundaries.1 (1 / 2) (by norm_num) (by norm_num),
   response_bucket_boundaries.2.1 3 (by norm_num) (by norm_num)⟩

end Chatlytics
